import Mathlib

/-
Verification development for the HIRI protocol Verifiable Atom core:
canonicalization, hash registry dispatch, URI parsing, authority
derivation, manifest sign/verify structure, and genesis validation.

The embedding follows the TypeScript sources (HashRegistry, HiriURI,
canonicalize, isGenesisValid).  Components whose implementation is not in
the repository (Signer, AuthorityDerivation, ManifestBuilder are present
only as interfaces and design text) are modelled from the specification,
and are marked as such in their doc comments.
-/

/-! ## JSON values

JSON-like structured data, as handled by the canonicalizer.  Object
fields are an insertion-ordered association list; JavaScript objects
cannot hold duplicate keys, so field lists are assumed key-unique.
Numbers are modelled as integers: every numeric literal appearing in the
repository fixtures and manifests is an integer, and JavaScript prints
integers in the safe range without a decimal point. -/

inductive Json where
  | null
  | bool (b : Bool)
  | num (n : Int)
  | str (s : String)
  | arr (elems : List Json)
  | obj (fields : List (String × Json))
deriving Repr

/-! ## UTF-8 and UTF-16 encodings

`TextEncoder().encode` produces UTF-8 bytes; `Array.prototype.sort`
compares strings by UTF-16 code units. -/

/-- UTF-8 byte sequence of a single character (code points only;
Lean characters are never lone surrogates). -/
def utf8Bytes (c : Char) : List Nat :=
  let n := c.toNat
  if n < 0x80 then [n]
  else if n < 0x800 then [0xC0 + n / 0x40, 0x80 + n % 0x40]
  else if n < 0x10000 then
    [0xE0 + n / 0x1000, 0x80 + n / 0x40 % 0x40, 0x80 + n % 0x40]
  else
    [0xF0 + n / 0x40000, 0x80 + n / 0x1000 % 0x40,
     0x80 + n / 0x40 % 0x40, 0x80 + n % 0x40]

/-- UTF-8 encoding of a string, the result of `TextEncoder().encode`. -/
def strUtf8 (s : String) : List Nat :=
  s.data.flatMap utf8Bytes

/-- UTF-16 code units of a string (surrogate pairs for supplementary
code points), the units `Array.prototype.sort` compares. -/
def utf16Units (s : String) : List Nat :=
  s.data.flatMap fun c =>
    let n := c.toNat
    if n < 0x10000 then [n]
    else [0xD800 + (n - 0x10000) / 0x400, 0xDC00 + (n - 0x10000) % 0x400]

/-- Lexicographic strict order on code-unit sequences. -/
def unitsLt : List Nat → List Nat → Bool
  | [], [] => false
  | [], _ :: _ => true
  | _ :: _, [] => false
  | a :: as, b :: bs => if a < b then true else if b < a then false else unitsLt as bs

/-- String comparison of `Array.prototype.sort`: by UTF-16 code units. -/
def keyLt (a b : String) : Bool :=
  unitsLt (utf16Units a) (utf16Units b)

/-- Insertion step of the key sort. -/
def insertSorted (k : String) : List String → List String
  | [] => [k]
  | x :: xs => if keyLt k x then k :: x :: xs else x :: insertSorted k xs

/-- Model of `keys.sort()`: sorts strings by UTF-16 code-unit order.
Keys of a JavaScript object are distinct, so any comparison sort yields
this unique sorted arrangement. -/
def sortKeys : List String → List String
  | [] => []
  | k :: ks => insertSorted k (sortKeys ks)

/-! ## JSON.stringify with an array replacer

`canonicalize` in the source is
`JSON.stringify(jsonld, Object.keys(jsonld).sort())`.
Per ECMA-262, when the replacer is an array it becomes the PropertyList:
at EVERY object (all nesting levels), exactly the PropertyList keys that
exist on that object are emitted, in PropertyList order; arrays are
serialized element by element, unaffected by the PropertyList. -/

/-- Model of `Object.keys`: own enumerable keys of the value, in
insertion order for objects, index strings for arrays. -/
def jsKeys : Json → List String
  | .obj fs => fs.map Prod.fst
  | .arr es => (List.range es.length).map (fun n => toString n)
  | _ => []

/-- Hexadecimal digit character (lowercase), used by the string escape. -/
def hexDigit (n : Nat) : Char :=
  if n < 10 then Char.ofNat (48 + n) else Char.ofNat (87 + n)

/-- Escape of one character inside a JSON string literal, per
`QuoteJSONString` of ECMA-262. -/
def escapeJsonChar (c : Char) : List Char :=
  if c = '"' then ['\\', '"']
  else if c = '\\' then ['\\', '\\']
  else if c = '\x08' then ['\\', 'b']
  else if c = '\x0c' then ['\\', 'f']
  else if c = '\n' then ['\\', 'n']
  else if c = '\r' then ['\\', 'r']
  else if c = '\t' then ['\\', 't']
  else if c.toNat < 0x20 then
    ['\\', 'u', '0', '0', hexDigit (c.toNat / 16), hexDigit (c.toNat % 16)]
  else [c]

/-- Quoted JSON string literal. -/
def quoteJson (s : String) : String :=
  ⟨'"' :: s.data.flatMap escapeJsonChar ++ ['"']⟩

/-- Selection pass of SerializeJSONObject with a PropertyList: for each
PropertyList key in order, the field of the object under that key, if
present. -/
def orderFields (plist : List String) (fs : List (String × Json)) : List (String × Json) :=
  plist.filterMap fun k => (fs.lookup k).map (fun v => (k, v))

mutual

/-- Application of an array replacer (PropertyList) to a JSON value, per
ECMA-262 SerializeJSONObject/SerializeJSONArray: every object keeps
exactly the PropertyList keys it has, in PropertyList order; arrays and
atoms are unchanged apart from recursion. -/
def jsReplace (plist : List String) : Json → Json
  | .null => .null
  | .bool b => .bool b
  | .num n => .num n
  | .str s => .str s
  | .arr es => .arr (jsReplaceList plist es)
  | .obj fs => .obj (orderFields plist (jsReplaceFields plist fs))

/-- Replacer application to array elements. -/
def jsReplaceList (plist : List String) : List Json → List Json
  | [] => []
  | j :: js => jsReplace plist j :: jsReplaceList plist js

/-- Replacer application to the values of an object field list (field
selection happens afterwards via `orderFields`). -/
def jsReplaceFields (plist : List String) : List (String × Json) → List (String × Json)
  | [] => []
  | (k, v) :: fs => (k, jsReplace plist v) :: jsReplaceFields plist fs

end

mutual

/-- Compact JSON text of a value (no insignificant whitespace), per
ECMA-262 with an undefined gap. -/
def serializeJson : Json → String
  | .null => "null"
  | .bool b => if b then "true" else "false"
  | .num n => toString n
  | .str s => quoteJson s
  | .arr es => "[" ++ serializeList es ++ "]"
  | .obj fs => "\x7b" ++ serializeFields fs ++ "\x7d"

/-- Comma-joined serialization of array elements. -/
def serializeList : List Json → String
  | [] => ""
  | [j] => serializeJson j
  | j :: js => serializeJson j ++ "," ++ serializeList js

/-- Comma-joined serialization of object fields. -/
def serializeFields : List (String × Json) → String
  | [] => ""
  | [(k, v)] => quoteJson k ++ ":" ++ serializeJson v
  | (k, v) :: fs => quoteJson k ++ ":" ++ serializeJson v ++ "," ++ serializeFields fs

end

/-- Embedding of the source function
`canonicalize(jsonld) = new TextEncoder().encode(JSON.stringify(jsonld, Object.keys(jsonld).sort()))`:
the top-level keys are sorted and used as the stringify array replacer
(PropertyList), and the resulting text is encoded as UTF-8 bytes.
A null root, on which `Object.keys` would throw, is given the empty key
list; no claim evaluates `canonicalize` at a null root. -/
def canonicalize (jsonld : Json) : List Nat :=
  strUtf8 (serializeJson (jsReplace (sortKeys (jsKeys jsonld)) jsonld))

/-! ## HashRegistry -/

/-- Interface `HashAlgorithm` of the source: a registry key (source
field `prefix`, the digest name before the colon, held here in `pfx`)
and the hash/verify operations, modelled as pure functions on byte
lists. -/
structure HashAlgorithm where
  pfx : String
  hashFn : List Nat → String
  verifyFn : List Nat → String → Bool

/-- Model of `Map.prototype.set`: replace the value in place when the
key is present, append otherwise (JavaScript Map preserves insertion
order). -/
def mapSet : List (String × HashAlgorithm) → String → HashAlgorithm → List (String × HashAlgorithm)
  | [], k, v => [(k, v)]
  | (k2, v2) :: rest, k, v =>
    if k2 = k then (k, v) :: rest else (k2, v2) :: mapSet rest k v

/-- Class `HashRegistry` of the source: the `algos` map from digest
names to algorithm instances, as an insertion-ordered association
list. -/
structure HashRegistry where
  algos : List (String × HashAlgorithm)

/-- Embedding of `HashRegistry.register`:
`this.algos.set(algo.prefix, algo)`. -/
def HashRegistry.register (r : HashRegistry) (algo : HashAlgorithm) : HashRegistry :=
  ⟨mapSet r.algos algo.pfx algo⟩

/-- Model of `taggedDigest.split(":")[0]`: the text before the first
colon (the whole string when it has no colon). -/
def pfxOfDigest (taggedDigest : String) : String :=
  ⟨taggedDigest.data.takeWhile (· ≠ ':')⟩

/-- Embedding of `HashRegistry.resolve`: extract the text before the
first colon, return the algorithm registered under it, and throw
`Unsupported Hash Algorithm` when none is. -/
def HashRegistry.resolve (r : HashRegistry) (taggedDigest : String) : Except String HashAlgorithm :=
  match r.algos.lookup (pfxOfDigest taggedDigest) with
  | some algo => .ok algo
  | none => .error ("Unsupported Hash Algorithm: " ++ pfxOfDigest taggedDigest)

/-! ## HiriURI -/

/-- Class `HiriURI` of the source: the authority, type, identifier
triple. -/
structure HiriURI where
  authority : String
  type : String
  identifier : String
deriving DecidableEq, Repr

/-- Characters of the literal scheme part `hiri://` that anchors the
pattern. -/
def schemeChars : List Char :=
  ['h', 'i', 'r', 'i', ':', '/', '/']

/-- Match of the anchored literal `^hiri:\/\/`: the remainder when the
input begins with the scheme, none otherwise. -/
def dropScheme (cs : List Char) : Option (List Char) :=
  if cs.take 7 = schemeChars then some (cs.drop 7) else none

/-- Split a character list at its first slash: the slash-free segment
before it and the remainder after it, or none when there is no slash. -/
def splitSeg : List Char → Option (List Char × List Char)
  | [] => none
  | c :: cs =>
    if c = '/' then some ([], cs)
    else
      match splitSeg cs with
      | some (seg, rest) => some (c :: seg, rest)
      | none => none

/-- Line terminators of ECMA-262, the characters the regular expression
dot does not match. -/
def isLineTerminator (c : Char) : Bool :=
  c = '\n' || c = '\r' || c.toNat = 0x2028 || c.toNat = 0x2029

/-- Character-level match of the source pattern
`/^hiri:\/\/([^\/]+)\/([^\/]+)\/(.+)$/`.  Because `[^\/]+` cannot cross
a slash, the first two groups are forced to the maximal slash-free runs
after the scheme, and the third group is the remainder, which `(.+)$`
accepts exactly when it is non-empty and free of line terminators (the
dot matches no line terminator); the decomposition of a matching string
is therefore unique and the match is computed directly. -/
def parseChars (cs : List Char) : Option (List Char × List Char × List Char) :=
  (dropScheme cs).bind fun rest =>
    (splitSeg rest).bind fun p1 =>
      (splitSeg p1.2).bind fun p2 =>
        if p1.1 = [] ∨ p2.1 = [] ∨ p2.2 = [] ∨ p2.2.any isLineTerminator then none
        else some (p1.1, p2.1, p2.2)

/-- Embedding of `HiriURI.parse`: match the pattern, throw
`Invalid HIRI URI` when it does not match, and return the three captured
groups otherwise. -/
def HiriURI.parse (uri : String) : Except String HiriURI :=
  match parseChars uri.data with
  | some (a, t, i) => .ok ⟨⟨a⟩, ⟨t⟩, ⟨i⟩⟩
  | none => .error ("Invalid HIRI URI: " ++ uri)

/-- Embedding of `HiriURI.toString`:
`hiri://\${authority}/\${type}/\${identifier}`. -/
def HiriURI.toString (u : HiriURI) : String :=
  "hiri://" ++ u.authority ++ "/" ++ u.type ++ "/" ++ u.identifier

/-! ## Manifests and genesis validation -/

/-- Signature block fields of the specification (section 5.2 shape). -/
structure SignatureBlock where
  type : String
  created : String
  verificationMethod : String
  proofPurpose : String
  proofValue : String

/-- Unsigned part of a `ResolutionManifest`: identifier, version,
optional chain link, content descriptor. -/
structure ManifestCore where
  atId : String
  version : Int
  chain : Option Json
  content : Json

/-- Embedding of `isGenesisValid` from the source, clause for clause:
version 1 without chain is valid genesis, version 1 with chain is valid,
version above 1 without chain is invalid, everything else falls through
to valid. -/
def isGenesisValid (m : ManifestCore) : Bool :=
  if m.version = 1 ∧ m.chain.isNone then true
  else if m.version = 1 ∧ m.chain.isSome then true
  else if m.version > 1 ∧ m.chain.isNone then false
  else true

/-- JSON form of a signature block. -/
def sigJson (s : SignatureBlock) : Json :=
  .obj [("type", .str s.type), ("created", .str s.created),
        ("verificationMethod", .str s.verificationMethod),
        ("proofPurpose", .str s.proofPurpose), ("proofValue", .str s.proofValue)]

/-- Fields of the unsigned manifest envelope, in construction order. -/
def unsignedFields (m : ManifestCore) : List (String × Json) :=
  [("@id", .str m.atId), ("@type", .str "ResolutionManifest"),
   ("version", .num m.version)]
  ++ (match m.chain with | some c => [("chain", c)] | none => [])
  ++ [("content", m.content)]

/-- JSON form of the unsigned manifest envelope. -/
def unsignedJson (m : ManifestCore) : Json :=
  .obj (unsignedFields m)

/-- JSON form of the signed manifest: the unsigned fields with the
signature block attached. -/
def signedJson (m : ManifestCore) (s : SignatureBlock) : Json :=
  .obj (unsignedFields m ++ [("signature", sigJson s)])

/-- Removal of the signature field from a manifest object, the
`manifest - signature` operation of the sign/verify protocol. -/
def removeSignature : Json → Json
  | .obj fs => .obj (fs.filter (fun kv => kv.1 ≠ "signature"))
  | j => j

/-- Field of an object value under a key. -/
def objGet (j : Json) (k : String) : Option Json :=
  match j with
  | .obj fs => fs.lookup k
  | _ => none

/-- Presence of a key on an object value. -/
def objHasKey (j : Json) (k : String) : Bool :=
  (objGet j k).isSome

/-- Extraction of the encoded proof value from a signature block in
JSON form. -/
def proofValueOf (j : Json) : String :=
  match objGet j "proofValue" with
  | some (.str s) => s
  | _ => ""

/-- Modelled from the spec: the ManifestBuilder signing step is not in
the repository (only its design text, steps d-f of section 4.6 and the
Sign line of the test plan).  Construct the manifest, omit the signature
block, canonicalize that structure, sign the resulting bytes with the
underlying scheme `signFn`, then attach the signature block. -/
def signManifest (signFn : List Nat → String) (m : ManifestCore) (meta : SignatureBlock) : Json :=
  signedJson m { meta with proofValue := signFn (canonicalize (unsignedJson m)) }

/-- Modelled from the spec: manifest verification is not in the
repository (only its design text, section 4.6 and the Verify line of
the test plan).  Extract the signature block, reconstruct the unsigned
manifest by removing the signature field, canonicalize it, and check
those bytes against the proof value with the underlying scheme
`checkFn`. -/
def verifyManifest (checkFn : List Nat → String → Bool) (j : Json) : Bool :=
  match objGet j "signature" with
  | some sj => checkFn (canonicalize (removeSignature j)) (proofValueOf sj)
  | none => false

/-! ## Authority derivation -/

/-- Base58 alphabet (Bitcoin variant, no 0, O, I, l). -/
def base58Alphabet : List Char :=
  "123456789ABCDEFGHJKLMNPQRSTUVWXYZabcdefghijkmnopqrstuvwxyz".data

/-- Base58 digit character of a value below 58. -/
def base58Digit (n : Nat) : Char :=
  base58Alphabet.getD n '1'

/-- Big-endian base58 digits of a natural number (empty for zero). -/
def natToBase58 (n : Nat) : List Char :=
  if h : n = 0 then []
  else natToBase58 (n / 58) ++ [base58Digit (n % 58)]
decreasing_by exact Nat.div_lt_self (Nat.pos_of_ne_zero h) (by decide)

/-- Big-endian value of a byte list. -/
def bytesToNat (bytes : List Nat) : Nat :=
  bytes.foldl (fun acc b => acc * 256 + b) 0

/-- Count of leading zero bytes, each encoded as the character 1. -/
def countLeadZeroBytes : List Nat → Nat
  | [] => 0
  | b :: bs => if b = 0 then countLeadZeroBytes bs + 1 else 0

/-- Base58 encoding of a byte list. -/
def base58Encode (bytes : List Nat) : List Char :=
  List.replicate (countLeadZeroBytes bytes) '1' ++ natToBase58 (bytesToNat bytes)

/-- Modelled from the spec: the AuthorityDerivation implementation is
not in the repository (only the interface and the formula
`"key:" + algorithmName + ":" + base58(hash(publicKeyBytes))[0:20]`
of section 4.3, with the registered default hash algorithm passed as
`defaultHash`). -/
def AuthorityDerivation.derive (defaultHash : List Nat → List Nat)
    (publicKey : List Nat) (algorithm : String) : String :=
  "key:" ++ algorithm ++ ":" ++ String.mk ((base58Encode (defaultHash publicKey)).take 20)

/-! ## Signer -/

/-- Error taxonomy entry for structurally malformed sign/verify input. -/
inductive SignerError where
  | invalidSignature
deriving DecidableEq, Repr

/-- Ed25519 public keys are 32 bytes. -/
def ed25519PublicKeyLength : Nat := 32

/-- Modelled from the spec: the Signer implementation is not in the
repository (only the interface and section 4.5).  Verification throws
`InvalidSignature` only on structurally malformed input, modelled as a
wrong-length public key, and otherwise returns the boolean of the
underlying Ed25519 check `checkFn`; a mismatched signature is the
boolean false, never an error. -/
def Signer.verify (checkFn : List Nat → SignatureBlock → List Nat → Bool)
    (content : List Nat) (signature : SignatureBlock) (publicKey : List Nat) :
    Except SignerError Bool :=
  if publicKey.length = ed25519PublicKeyLength then
    .ok (checkFn content signature publicKey)
  else .error .invalidSignature

/-! ## Sample instances used in concrete check theorems -/

/-- Sample SHA-256 algorithm instance used as a concrete registry entry. -/
def sha256Sample : HashAlgorithm :=
  ⟨"sha256", fun _ => "sha256:e3b0", fun _ _ => false⟩

/-- Second sample instance under the same name, for overwrite checks. -/
def sha256SampleB : HashAlgorithm :=
  ⟨"sha256", fun _ => "sha256:ffff", fun _ _ => true⟩

/-- Check function that rejects everything, standing for an Ed25519
check at a mismatched signature. -/
def alwaysFalseCheck : List Nat → SignatureBlock → List Nat → Bool :=
  fun _ _ _ => false

/-- Sample signature block for concrete instances. -/
def sampleSignature : SignatureBlock :=
  ⟨"Ed25519Signature2020", "2026-02-01T00:00:00Z",
   "hiri://key:ed25519:abc/key/main#key-1", "assertionMethod", "zsig"⟩

/-! ## Registry lemmas -/

/-- Setting the same key-value pair twice equals setting it once. -/
theorem mapSet_idem (m : List (String × HashAlgorithm)) (k : String) (v : HashAlgorithm) :
    mapSet (mapSet m k v) k v = mapSet m k v := by
  induction m with
  | nil => simp [mapSet]
  | cons hd tl ih =>
    by_cases h : hd.1 = k
    · simp [mapSet, h]
    · simp [mapSet, h, ih]

/-- Lookup after a set finds the freshly set value. -/
theorem lookup_mapSet (m : List (String × HashAlgorithm)) (k : String) (v : HashAlgorithm) :
    (mapSet m k v).lookup k = some v := by
  induction m with
  | nil => simp [mapSet]
  | cons hd tl ih =>
    by_cases h : hd.1 = k
    · simp [mapSet, h]
    · have hbeq : (k == hd.1) = false := by
        simpa [beq_iff_eq] using fun he => h he.symm
      simp [mapSet, h, List.lookup, hbeq, ih]

/-! ## Claim theorems -/

/-- C1: the claim says `canonicalize` sorts object keys recursively at
every nesting level and preserves content; the code instead passes the
sorted TOP-LEVEL key list as the `JSON.stringify` array replacer, which
filters every nesting level to those keys — contradicting the function's
own comment (sort keys lexicographically at all nesting levels, RFC
8785).  At the input with top-level key b and nested keys c, a the code
emits the bytes of the text with the nested object EMPTIED, not the
bytes of the text with the nested keys sorted. -/
theorem canonicalize_drops_nested_keys :
    canonicalize (Json.obj [("b", Json.obj [("c", Json.num 1), ("a", Json.num 2)])])
      = strUtf8 "\x7b\"b\":\x7b\x7d\x7d"
    ∧ canonicalize (Json.obj [("b", Json.obj [("c", Json.num 1), ("a", Json.num 2)])])
      ≠ strUtf8 "\x7b\"b\":\x7b\"a\":2,\"c\":1\x7d\x7d" := by
  exact ⟨by decide, by decide⟩

/-- C2: genesis validation follows the specified state table: version 1
is valid with or without a chain link, version above 1 is invalid
without one (the NonGenesisWithoutChain rejection, the single false
result) and valid with one at this layer. -/
theorem isGenesisValid_state_table (m : ManifestCore) :
    (m.version = 1 → m.chain.isNone → isGenesisValid m = true)
    ∧ (m.version = 1 → m.chain.isSome → isGenesisValid m = true)
    ∧ (m.version > 1 → m.chain.isNone → isGenesisValid m = false)
    ∧ (m.version > 1 → m.chain.isSome → isGenesisValid m = true) := by
  refine ⟨fun h1 h2 => ?_, fun h1 h2 => ?_, fun h1 h2 => ?_, fun h1 h2 => ?_⟩ <;>
    simp [isGenesisValid, h1, h2] <;> omega

/-- Concrete instances of the genesis state table. -/
theorem isGenesisValid_state_table_witness :
    isGenesisValid ⟨"hiri://a/data/x", 1, none, Json.null⟩ = true
    ∧ isGenesisValid ⟨"hiri://a/data/x", 1, some Json.null, Json.null⟩ = true
    ∧ isGenesisValid ⟨"hiri://a/data/x", 2, none, Json.null⟩ = false
    ∧ isGenesisValid ⟨"hiri://a/data/x", 2, some Json.null, Json.null⟩ = true :=
  ⟨(isGenesisValid_state_table _).1 rfl rfl,
   (isGenesisValid_state_table _).2.1 rfl rfl,
   (isGenesisValid_state_table _).2.2.1 (by decide) rfl,
   (isGenesisValid_state_table _).2.2.2 (by decide) rfl⟩

/-- C10: `isGenesisValid` rejects exactly the one case of version above
1 with the chain link absent; in particular every manifest with version
below 1 (0, negative) and no chain link falls through to true. -/
theorem isGenesisValid_accepts_below_one (m : ManifestCore) :
    (m.version < 1 → m.chain.isNone → isGenesisValid m = true)
    ∧ (isGenesisValid m = false ↔ m.version > 1 ∧ m.chain.isNone) := by
  rcases hc : m.chain with _ | c
  · refine ⟨fun h1 _ => ?_, ?_⟩
    · simp only [isGenesisValid, hc]
      split_ifs <;> simp_all <;> omega
    · simp only [isGenesisValid, hc]
      split_ifs <;> simp_all <;> omega
  · refine ⟨fun h1 h2 => ?_, ?_⟩
    · simp [hc] at h2
    · simp only [isGenesisValid, hc]
      split_ifs <;> simp_all

/-- Concrete below-one instances: version 0 and a negative version with
no chain link are accepted. -/
theorem isGenesisValid_accepts_below_one_witness :
    isGenesisValid ⟨"hiri://a/data/y", 0, none, Json.null⟩ = true
    ∧ isGenesisValid ⟨"hiri://a/data/y", -3, none, Json.null⟩ = true :=
  ⟨(isGenesisValid_accepts_below_one _).1 (by decide) rfl,
   (isGenesisValid_accepts_below_one _).1 (by decide) rfl⟩

/-- C5: `resolve` keys its lookup on the text before the first colon,
returns the algorithm registered under it and throws the
UnsupportedHashAlgorithm error otherwise; in particular a registered
SHA-256 instance is returned for a sha256-tagged digest and a
blake3-tagged digest throws when nothing is registered under blake3. -/
theorem hashRegistry_resolve_dispatch :
    (∀ (r : HashRegistry) (s : String) (a : HashAlgorithm),
        r.algos.lookup (pfxOfDigest s) = some a → r.resolve s = .ok a)
    ∧ (∀ (r : HashRegistry) (s : String),
        r.algos.lookup (pfxOfDigest s) = none →
          r.resolve s = .error ("Unsupported Hash Algorithm: " ++ pfxOfDigest s))
    ∧ (∀ a : HashAlgorithm, a.pfx = "sha256" →
        (HashRegistry.register ⟨[]⟩ a).resolve "sha256:Qm123" = .ok a)
    ∧ (∀ a : HashAlgorithm, a.pfx = "sha256" →
        (HashRegistry.register ⟨[]⟩ a).resolve "blake3:Qm123"
          = .error "Unsupported Hash Algorithm: blake3") := by
  refine ⟨fun r s a h => ?_, fun r s h => ?_, fun a h => ?_, fun a h => ?_⟩
  · simp [HashRegistry.resolve, h]
  · simp [HashRegistry.resolve, h]
  · simp [HashRegistry.resolve, HashRegistry.register, mapSet, h]
    rfl
  · simp [HashRegistry.resolve, HashRegistry.register, mapSet, h]
    rfl

/-- Concrete registry dispatch: the two scenario rows of the claim at a
sample SHA-256 instance, and the general hit and miss cases at concrete
registries. -/
theorem hashRegistry_resolve_dispatch_witness :
    (HashRegistry.register ⟨[]⟩ sha256Sample).resolve "sha256:Qm123" = .ok sha256Sample
    ∧ (HashRegistry.register ⟨[]⟩ sha256Sample).resolve "blake3:Qm123"
        = .error "Unsupported Hash Algorithm: blake3"
    ∧ (HashRegistry.mk [("sha256", sha256Sample)]).resolve "sha256:ab" = .ok sha256Sample
    ∧ (HashRegistry.mk []).resolve "blake3:ab" = .error "Unsupported Hash Algorithm: blake3" :=
  ⟨hashRegistry_resolve_dispatch.2.2.1 sha256Sample rfl,
   hashRegistry_resolve_dispatch.2.2.2 sha256Sample rfl,
   hashRegistry_resolve_dispatch.1 ⟨[("sha256", sha256Sample)]⟩ "sha256:ab" sha256Sample rfl,
   hashRegistry_resolve_dispatch.2.1 ⟨[]⟩ "blake3:ab" rfl⟩

/-- C9: `register` is a total function (no error path exists in its
type), registering the same algorithm twice leaves the registry in
exactly the state of registering it once, a registration is always
found under its name, and a later registration under an existing name
replaces the earlier algorithm. -/
theorem hashRegistry_register_idem_overwrite :
    (∀ (r : HashRegistry) (a : HashAlgorithm),
        (r.register a).register a = r.register a)
    ∧ (∀ (r : HashRegistry) (a : HashAlgorithm),
        (r.register a).algos.lookup a.pfx = some a)
    ∧ (∀ (r : HashRegistry) (a1 a2 : HashAlgorithm), a1.pfx = a2.pfx →
        ((r.register a1).register a2).algos.lookup a2.pfx = some a2) := by
  refine ⟨fun r a => ?_, fun r a => ?_, fun r a1 a2 h => ?_⟩
  · show HashRegistry.mk _ = HashRegistry.mk _
    rw [HashRegistry.register, mapSet_idem]
  · exact lookup_mapSet r.algos a.pfx a
  · exact lookup_mapSet (mapSet r.algos a1.pfx a1) a2.pfx a2

/-- Concrete overwrite: after registering two sample SHA-256 instances
in turn, the second one is found under sha256. -/
theorem hashRegistry_register_idem_overwrite_witness :
    ((HashRegistry.register (HashRegistry.register ⟨[]⟩ sha256Sample) sha256SampleB).algos.lookup
      "sha256") = some sha256SampleB :=
  hashRegistry_register_idem_overwrite.2.2 ⟨[]⟩ sha256Sample sha256SampleB rfl

/-- C6: the derived authority string is exactly the key tag, the
algorithm name and the first 20 base58 characters of the default hash
of the public key bytes, the truncation never exceeds 20 characters,
and derivation is deterministic: two calls on the same inputs yield the
same string. -/
theorem authorityDerivation_derive_formula (defaultHash : List Nat → List Nat)
    (publicKey : List Nat) (algorithm : String) :
    AuthorityDerivation.derive defaultHash publicKey algorithm
      = "key:" ++ algorithm ++ ":" ++ String.mk ((base58Encode (defaultHash publicKey)).take 20)
    ∧ ((base58Encode (defaultHash publicKey)).take 20).length ≤ 20
    ∧ AuthorityDerivation.derive defaultHash publicKey algorithm
      = AuthorityDerivation.derive defaultHash publicKey algorithm := by
  refine ⟨rfl, ?_, rfl⟩
  simp [List.length_take]

/-- C7: with a structurally well-formed public key (32 bytes for
Ed25519), `verify` returns the boolean of the underlying check and so
never throws on a mismatched signature — a mismatch is the value
`ok false`; an error, `InvalidSignature`, arises exactly when the key
length is malformed. -/
theorem signer_verify_mismatch_is_false (checkFn : List Nat → SignatureBlock → List Nat → Bool)
    (content : List Nat) (signature : SignatureBlock) (publicKey : List Nat) :
    (publicKey.length = ed25519PublicKeyLength →
        Signer.verify checkFn content signature publicKey
          = .ok (checkFn content signature publicKey))
    ∧ (publicKey.length = ed25519PublicKeyLength →
        checkFn content signature publicKey = false →
        Signer.verify checkFn content signature publicKey = .ok false)
    ∧ (publicKey.length ≠ ed25519PublicKeyLength →
        Signer.verify checkFn content signature publicKey = .error .invalidSignature) := by
  refine ⟨fun h => ?_, fun h hm => ?_, fun h => ?_⟩
  · simp [Signer.verify, h]
  · simp [Signer.verify, h, hm]
  · simp [Signer.verify, h]

/-- Concrete mismatch and malformed-key instances: a correctly sized
key with a mismatched signature yields `ok false`, a 1-byte key yields
the InvalidSignature error. -/
theorem signer_verify_mismatch_is_false_witness :
    Signer.verify alwaysFalseCheck [1, 2, 3] sampleSignature (List.replicate 32 0) = .ok false
    ∧ Signer.verify alwaysFalseCheck [9] sampleSignature (List.replicate 32 1)
        = .ok (alwaysFalseCheck [9] sampleSignature (List.replicate 32 1))
    ∧ Signer.verify alwaysFalseCheck [1, 2, 3] sampleSignature [0] = .error .invalidSignature :=
  ⟨(signer_verify_mismatch_is_false _ _ _ _).2.1 (by decide) rfl,
   (signer_verify_mismatch_is_false _ _ _ _).1 (by decide),
   (signer_verify_mismatch_is_false _ _ _ _).2.2 (by decide)⟩

/-! ## Manifest signing lemmas -/

/-- Stripping the signature field from a signed manifest restores
exactly the unsigned envelope. -/
theorem removeSignature_signedJson (m : ManifestCore) (s : SignatureBlock) :
    removeSignature (signedJson m s) = unsignedJson m := by
  rcases m with ⟨atId, version, chain, content⟩
  cases chain <;>
    simp [removeSignature, signedJson, unsignedJson, unsignedFields, List.filter_append]

/-- Reading the signature field of a signed manifest yields the
attached block. -/
theorem objGet_signedJson (m : ManifestCore) (s : SignatureBlock) :
    objGet (signedJson m s) "signature" = some (sigJson s) := by
  rcases m with ⟨atId, version, chain, content⟩
  cases chain <;> simp [objGet, signedJson, unsignedFields, List.lookup]

/-- The proof value of a signature block in JSON form is its encoded
proof string. -/
theorem proofValueOf_sigJson (s : SignatureBlock) :
    proofValueOf (sigJson s) = s.proofValue := by
  simp [proofValueOf, sigJson, objGet, List.lookup]

/-- C4: the signing target is exactly the canonical bytes of the
manifest with the signature field removed — the unsigned envelope never
carries a signature field, stripping the signed manifest restores that
envelope bit for bit, and verification canonicalizes the same unsigned
reconstruction and checks exactly the bytes that were signed. -/
theorem manifest_signature_excludes_itself (signFn : List Nat → String)
    (checkFn : List Nat → String → Bool) (m : ManifestCore) (meta : SignatureBlock) :
    removeSignature (signManifest signFn m meta) = unsignedJson m
    ∧ objHasKey (unsignedJson m) "signature" = false
    ∧ verifyManifest checkFn (signManifest signFn m meta)
        = checkFn (canonicalize (unsignedJson m)) (signFn (canonicalize (unsignedJson m))) := by
  refine ⟨removeSignature_signedJson m _, ?_, ?_⟩
  · rcases m with ⟨atId, version, chain, content⟩
    cases chain <;> simp [objHasKey, objGet, unsignedJson, unsignedFields, List.lookup]
  · rw [verifyManifest, signManifest, objGet_signedJson, removeSignature_signedJson]
    simp [proofValueOf_sigJson]

/-! ## URI pattern lemmas -/

/-- Scheme matching succeeds exactly on lists beginning with the
scheme characters. -/
theorem dropScheme_iff (cs rest : List Char) :
    dropScheme cs = some rest ↔ cs = schemeChars ++ rest := by
  unfold dropScheme
  by_cases h7 : cs.take 7 = schemeChars
  · rw [if_pos h7]
    constructor
    · intro h
      injection h with h2
      rw [← h2, ← h7]
      exact (List.take_append_drop 7 cs).symm
    · intro h
      subst h
      rw [show (7 : Nat) = schemeChars.length from rfl, List.drop_left]
  · rw [if_neg h7]
    constructor
    · intro h
      exact absurd h (by simp)
    · intro h
      exfalso
      apply h7
      subst h
      rw [show (7 : Nat) = schemeChars.length from rfl, List.take_left]

/-- Soundness of the segment split: a successful split decomposes the
input at its first slash, and the segment is slash-free. -/
theorem splitSeg_sound (cs seg rest : List Char) (h : splitSeg cs = some (seg, rest)) :
    cs = seg ++ '/' :: rest ∧ ∀ c ∈ seg, c ≠ '/' := by
  induction cs generalizing seg rest with
  | nil => simp [splitSeg] at h
  | cons c cs ih =>
    by_cases hc : c = '/'
    · subst hc
      simp only [splitSeg, if_pos, Option.some.injEq, Prod.mk.injEq] at h
      obtain ⟨h1, h2⟩ := h
      subst h1; subst h2
      simp
    · simp only [splitSeg, hc, if_neg, not_false_iff] at h
      rcases hs : splitSeg cs with _ | ⟨sg, rs⟩ <;> rw [hs] at h
      · simp at h
      · simp only [Option.some.injEq, Prod.mk.injEq] at h
        obtain ⟨h1, h2⟩ := h
        subst h1; subst h2
        obtain ⟨ih1, ih2⟩ := ih _ _ hs
        subst ih1
        refine ⟨rfl, ?_⟩
        intro x hx
        rcases List.mem_cons.mp hx with hx | hx
        · subst hx; exact hc
        · exact ih2 x hx

/-- Completeness of the segment split: a slash-free segment followed by
a slash is recovered exactly. -/
theorem splitSeg_complete (a r : List Char) (ha : ∀ c ∈ a, c ≠ '/') :
    splitSeg (a ++ '/' :: r) = some (a, r) := by
  induction a with
  | nil => simp [splitSeg]
  | cons c a ih =>
    have hc : c ≠ '/' := ha c (by simp)
    have ih2 := ih (fun x hx => ha x (by simp [hx]))
    simp [splitSeg, hc, ih2]

/-- Characterization of the pattern match: it succeeds with the groups
a, t, i exactly when the input is the scheme, a non-empty slash-free
authority, a slash, a non-empty slash-free type, a slash, and a
non-empty identifier free of line terminators. -/
theorem parseChars_iff (cs a t i : List Char) :
    parseChars cs = some (a, t, i) ↔
      (cs = schemeChars ++ a ++ '/' :: t ++ '/' :: i
        ∧ a ≠ [] ∧ t ≠ [] ∧ i ≠ []
        ∧ (∀ c ∈ a, c ≠ '/') ∧ (∀ c ∈ t, c ≠ '/')
        ∧ (∀ c ∈ i, isLineTerminator c = false)) := by
  constructor
  · intro h
    unfold parseChars at h
    rw [Option.bind_eq_some] at h
    obtain ⟨rest, hd, h⟩ := h
    rw [Option.bind_eq_some] at h
    obtain ⟨⟨a2, r1⟩, h1, h⟩ := h
    rw [Option.bind_eq_some] at h
    obtain ⟨⟨t2, r2⟩, h2, h⟩ := h
    simp only at h h2
    by_cases hcnd : a2 = [] ∨ t2 = [] ∨ r2 = [] ∨ r2.any isLineTerminator = true
    · rw [if_pos hcnd] at h
      exact absurd h (by simp)
    · rw [if_neg hcnd] at h
      simp only [Option.some.injEq, Prod.mk.injEq] at h
      obtain ⟨ha2, ht2, hr2⟩ := h
      subst ha2; subst ht2; subst hr2
      push_neg at hcnd
      obtain ⟨hne1, hne2, hne3, hany⟩ := hcnd
      obtain ⟨e1, f1⟩ := splitSeg_sound _ _ _ h1
      obtain ⟨e2, f2⟩ := splitSeg_sound _ _ _ h2
      have hcs : cs = schemeChars ++ rest := (dropScheme_iff cs rest).mp hd
      subst e2
      subst e1
      refine ⟨by simp [hcs], hne1, hne2, hne3, f1, f2, ?_⟩
      intro c hc
      by_contra hlt
      exact hany (List.any_eq_true.mpr ⟨c, hc, by simpa using hlt⟩)
  · intro ⟨hdec, ha, ht, hi, haf, htf, hif⟩
    have hd : dropScheme cs = some (a ++ '/' :: (t ++ '/' :: i)) := by
      rw [dropScheme_iff, hdec]
      simp
    have hs1 : splitSeg (a ++ '/' :: (t ++ '/' :: i)) = some (a, t ++ '/' :: i) :=
      splitSeg_complete a (t ++ '/' :: i) haf
    have hs2 : splitSeg (t ++ '/' :: i) = some (t, i) :=
      splitSeg_complete t i htf
    have hany : i.any isLineTerminator = false := by
      rw [List.any_eq_false]
      intro c hc
      simp [hif c hc]
    simp only [parseChars, hd, hs1, hs2, Option.some_bind]
    simp [ha, ht, hi, hany]

/-- C8 counterexample: the string with a newline inside its identifier
part satisfies the pattern as the claim states it — scheme, slash-free
non-empty authority and type, non-empty greedy remainder — yet `parse`
throws InvalidURI, because the regular expression dot does not match a
line terminator. -/
theorem hiriURI_parse_pattern_counterexample :
    ("hiri://a/b/c\nd").data
        = schemeChars ++ ['a'] ++ '/' :: ['b'] ++ '/' :: ['c', '\n', 'd']
    ∧ (['a'] : List Char) ≠ [] ∧ (['b'] : List Char) ≠ []
    ∧ (['c', '\n', 'd'] : List Char) ≠ []
    ∧ (∀ c ∈ (['a'] : List Char), c ≠ '/') ∧ (∀ c ∈ (['b'] : List Char), c ≠ '/')
    ∧ HiriURI.parse "hiri://a/b/c\nd" = .error "Invalid HIRI URI: hiri://a/b/c\nd" := by
  refine ⟨by decide, by decide, by decide, by decide, by decide, by decide, rfl⟩

/-- C8 amended: `parse` succeeds with the three captured components
exactly on strings of the form scheme, non-empty slash-free authority,
slash, non-empty slash-free type, slash, non-empty identifier that may
contain further slashes but no line terminator (the one amendment: the
regular expression dot excludes the four line terminators); every other
string fails with the InvalidURI error. -/
theorem hiriURI_parse_pattern (uri : String) (a t i : List Char) :
    (HiriURI.parse uri = .ok ⟨⟨a⟩, ⟨t⟩, ⟨i⟩⟩ ↔
      (uri.data = schemeChars ++ a ++ '/' :: t ++ '/' :: i
        ∧ a ≠ [] ∧ t ≠ [] ∧ i ≠ []
        ∧ (∀ c ∈ a, c ≠ '/') ∧ (∀ c ∈ t, c ≠ '/')
        ∧ (∀ c ∈ i, isLineTerminator c = false)))
    ∧ (HiriURI.parse uri = .error ("Invalid HIRI URI: " ++ uri) ↔
        ¬ ∃ a2 t2 i2 : List Char,
          uri.data = schemeChars ++ a2 ++ '/' :: t2 ++ '/' :: i2
            ∧ a2 ≠ [] ∧ t2 ≠ [] ∧ i2 ≠ []
            ∧ (∀ c ∈ a2, c ≠ '/') ∧ (∀ c ∈ t2, c ≠ '/')
            ∧ (∀ c ∈ i2, isLineTerminator c = false)) := by
  constructor
  · rcases hp : parseChars uri.data with _ | ⟨a3, t3, i3⟩
    · simp only [HiriURI.parse, hp]
      constructor
      · intro h
        exact absurd h (by simp)
      · intro hdec
        have h2 := (parseChars_iff uri.data a t i).mpr hdec
        rw [hp] at h2
        exact absurd h2 (by simp)
    · simp only [HiriURI.parse, hp]
      constructor
      · intro h
        have he : a3 = a ∧ t3 = t ∧ i3 = i := by
          simpa [HiriURI.mk.injEq, String.ext_iff] using h
        obtain ⟨e1, e2, e3⟩ := he
        subst e1; subst e2; subst e3
        exact (parseChars_iff uri.data _ _ _).mp hp
      · intro hdec
        have h2 := (parseChars_iff uri.data a t i).mpr hdec
        rw [hp] at h2
        simp only [Option.some.injEq, Prod.mk.injEq] at h2
        obtain ⟨e1, e2, e3⟩ := h2
        subst e1; subst e2; subst e3
        rfl
  · rcases hp : parseChars uri.data with _ | ⟨a3, t3, i3⟩
    · simp only [HiriURI.parse, hp]
      constructor
      · rintro _ ⟨a2, t2, i2, hdec⟩
        have h2 := (parseChars_iff uri.data a2 t2 i2).mpr hdec
        rw [hp] at h2
        exact absurd h2 (by simp)
      · intro _
        trivial
    · simp only [HiriURI.parse, hp]
      constructor
      · intro h
        exact absurd h (by simp)
      · intro hno
        exfalso
        exact hno ⟨a3, t3, i3, (parseChars_iff uri.data a3 t3 i3).mp hp⟩

/-- C3 counterexample: the identifier triple (a, b, newline) meets the
validity constraints the specification states — non-empty components,
no path separator in authority or type, non-empty identifier — yet
parsing its string form throws InvalidURI instead of returning the
triple, because the regular expression dot does not match the newline. -/
theorem hiriURI_roundtrip_counterexample :
    (("a" : String).data ≠ [] ∧ ("b" : String).data ≠ [] ∧ ("\n" : String).data ≠ []
      ∧ (∀ c ∈ ("a" : String).data, c ≠ '/') ∧ (∀ c ∈ ("b" : String).data, c ≠ '/'))
    ∧ HiriURI.parse (HiriURI.toString ⟨"a", "b", "\n"⟩)
        = .error "Invalid HIRI URI: hiri://a/b/\n" :=
  ⟨by decide, rfl⟩

/-- C3 amended: for every identifier triple with non-empty components,
no slash in the authority or the type, and no line terminator in the
identifier (the one amendment forced by the counterexample), parsing
the string form returns exactly the original triple. -/
theorem hiriURI_roundtrip (a t i : String)
    (ha1 : a.data ≠ []) (haf : ∀ c ∈ a.data, c ≠ '/')
    (ht1 : t.data ≠ []) (htf : ∀ c ∈ t.data, c ≠ '/')
    (hi1 : i.data ≠ []) (hif : ∀ c ∈ i.data, isLineTerminator c = false) :
    HiriURI.parse (HiriURI.toString ⟨a, t, i⟩) = .ok ⟨a, t, i⟩ := by
  have hdata : (HiriURI.toString ⟨a, t, i⟩).data
      = schemeChars ++ a.data ++ '/' :: t.data ++ '/' :: i.data := by
    simp [HiriURI.toString, String.data_append, schemeChars]
  have h := (parseChars_iff (HiriURI.toString ⟨a, t, i⟩).data a.data t.data i.data).mpr
    ⟨hdata, ha1, ht1, hi1, haf, htf, hif⟩
  unfold HiriURI.parse
  rw [h]

/-- Concrete round trip at a realistic identifier whose identifier part
contains a path separator. -/
theorem hiriURI_roundtrip_witness :
    HiriURI.parse (HiriURI.toString ⟨"key:ed25519:Ab1", "data", "person-001/v2"⟩)
      = .ok ⟨"key:ed25519:Ab1", "data", "person-001/v2"⟩ :=
  hiriURI_roundtrip "key:ed25519:Ab1" "data" "person-001/v2"
    (by decide) (by decide) (by decide) (by decide) (by decide) (by decide)

/-- Concrete pattern instances: a matching string with a slash inside
the identifier parses to its three components, and a newline-free
mismatch is characterized through the same theorem. -/
theorem hiriURI_parse_pattern_witness :
    HiriURI.parse "hiri://k1/doc/a/b" = .ok ⟨"k1", "doc", "a/b"⟩ :=
  (hiriURI_parse_pattern "hiri://k1/doc/a/b" ['k', '1'] ['d', 'o', 'c'] ['a', '/', 'b']).1.mpr
    (by decide)
